import Mathlib

/-!
Shallow embedding of the candid `discharger` package core: the discharge-token
minter (`dischargeTokenCreator.DischargeToken`), the visit completer
(`visitCompleter.Success`, `successToken`, `Failure`, `RedirectSuccess`,
`RedirectFailure`, `redirect`, `usernameFromDischargeToken`) and the
per-request handler creator (`handlerCreator` / `handler.Close`).

External collaborators (the bakery oven, the meeting place `Done`, the
discharge-token store `Put`, the identity store, the page template and the
wall clock) are modelled as an `Env` record of injected outcomes; every
observable side effect (store update, log line, rendezvous delivery, token
store put, HTTP redirect, inline error write, page render) is recorded as an
`Action` in the order the Go code performs it.
-/

namespace Candid

/-- Error codes as carried by `params.ErrorCode` / errgo causes. -/
inductive ErrorCode where
  | badRequest
  | unauthorized
  | notFound
  | other (name : String)
deriving DecidableEq

/-- The wire string of a `params.ErrorCode` (`params.ErrBadRequest` is
"bad request", etc.). -/
def errorCodeString : ErrorCode → String
  | ErrorCode.badRequest => "bad request"
  | ErrorCode.unauthorized => "unauthorized"
  | ErrorCode.notFound => "not found"
  | ErrorCode.other s => s

/-- An error value: its message (`err.Error()`) and, when the errgo cause is a
`params.ErrorCode`, that code. -/
structure Err where
  msg : String
  code : Option ErrorCode
deriving DecidableEq

/-- `errgo.WithCausef(err, params.ErrBadRequest, "invalid return_to")`. -/
def errBadRequestReturnTo : Err :=
  { msg := "invalid return_to", code := some ErrorCode.badRequest }

/-- `params.ErrUnauthorized`. -/
def errUnauthorized : Err :=
  { msg := "unauthorized", code := some ErrorCode.unauthorized }

/-- The fields of `store.Identity` touched by this package. -/
structure Identity where
  username : String
  lastLogin : Option Nat
deriving DecidableEq

/-- Time is measured in seconds. -/
def minute : Nat := 60

def hour : Nat := 60 * minute

/-- `identityMacaroonDuration = 28 * 24 * time.Hour`: the length of time for
which an identity macaroon is valid. -/
def identityMacaroonDuration : Nat := 28 * 24 * hour

/-- `dischargeTokenDuration = identityMacaroonDuration`: the length of time
for which a discharge token is valid. -/
def dischargeTokenDuration : Nat := identityMacaroonDuration

/-- A first-party caveat as built by this package: `checkers.TimeBeforeCaveat`
or a declared caveat (`candidclient.UserDeclaration` declares "username"). -/
inductive Caveat where
  | timeBefore (t : Nat)
  | declared (key value : String)
deriving DecidableEq

/-- The part of a macaroon this package observes: its caveat list. -/
structure Macaroon where
  caveats : List Caveat
deriving DecidableEq

/-- The binary wire form of a marshalled macaroon, as an injective token
stream (tag and payload tokens). -/
abbrev Bin := List (String ⊕ Nat)

/-- One caveat's contribution to `MarshalBinary`. -/
def marshalCaveat : Caveat → Bin
  | Caveat.timeBefore t => [Sum.inl "time-before", Sum.inr t]
  | Caveat.declared k v => [Sum.inl "declared", Sum.inl k, Sum.inl v]

/-- `m.M().MarshalBinary()`: serialize the macaroon's caveats. -/
def Macaroon.marshalBinary (m : Macaroon) : Bin :=
  (m.caveats.map marshalCaveat).flatten

/-- `m.UnmarshalBinary(...)` on the caveat stream; fails (returns `none`) on
any byte stream that is not a well-formed marshalling. -/
def unmarshalCaveats : Bin → Option (List Caveat)
  | [] => some []
  | Sum.inl tag :: Sum.inr t :: rest =>
      if tag = "time-before" then
        (unmarshalCaveats rest).map (fun cs => Caveat.timeBefore t :: cs)
      else none
  | Sum.inl tag :: Sum.inl k :: Sum.inl v :: rest =>
      if tag = "declared" then
        (unmarshalCaveats rest).map (fun cs => Caveat.declared k v :: cs)
      else none
  | _ => none

/-- `httpbakery.DischargeToken`: `{Kind, Value}`. -/
structure DischargeToken where
  kind : String
  value : Bin
deriving DecidableEq

/-- The declared-caveat values for `key` in a macaroon. -/
def declaredValues (m : Macaroon) (key : String) : List String :=
  m.caveats.filterMap fun c =>
    match c with
    | Caveat.declared k v => if k = key then some v else none
    | _ => none

/-- Modelled from the bakery library: `checkers.InferDeclared` over a single
macaroon returns the value declared for a key, dropping conflicting
declarations; indexing a Go map with a missing key yields `""`. -/
def inferDeclared (m : Macaroon) (key : String) : String :=
  match (declaredValues m key).dedup with
  | [v] => v
  | _ => ""

/-- `usernameFromDischargeToken`: empty unless the token is a well-formed
macaroon declaring a username. -/
def usernameFromDischargeToken (dt : DischargeToken) : String :=
  if dt.kind ≠ "macaroon" then ""
  else
    match unmarshalCaveats dt.value with
    | none => ""
    | some cs => inferDeclared { caveats := cs } "username"

/-- `url.Values`: a map from key to list of values, with unique keys. -/
abbrev Values := List (String × List String)

/-- Map lookup: the values stored under `k` (`[]` when absent). -/
def Values.get (k : String) : Values → List String
  | [] => []
  | p :: rest => if p.1 = k then p.2 else Values.get k rest

/-- Map assignment `vs[k] = xs`. -/
def Values.setAll (k : String) (xs : List String) : Values → Values
  | [] => [(k, xs)]
  | p :: rest =>
      if p.1 = k then (k, xs) :: rest else p :: Values.setAll k xs rest

/-- `v.Set(k, x)`: replace the values for `k` with the single value `x`. -/
def Values.set (vs : Values) (k x : String) : Values :=
  Values.setAll k [x] vs

/-- `v.Add(k, x)`: append `x` to the values for `k` (used by query parsing). -/
def Values.add (vs : Values) (k x : String) : Values :=
  Values.setAll k (Values.get k vs ++ [x]) vs

/-- `for k, v := range query { q[k] = append(q[k], v...) }` from
`visitCompleter.redirect`. -/
def mergeValues (q : Values) : Values → Values
  | [] => q
  | p :: rest => mergeValues (Values.setAll p.1 (Values.get p.1 q ++ p.2) q) rest

/-- Split a character list at every occurrence of `sep`; always non-empty. -/
def splitOnChar (sep : Char) : List Char → List (List Char)
  | [] => [[]]
  | c :: rest =>
      let r := splitOnChar sep rest
      if c = sep then [] :: r
      else
        match r with
        | [] => [[c]]
        | h :: t => (c :: h) :: t

/-- Split a character list at the first `'='` (Go `strings.Cut`). -/
def cutEq : List Char → List Char × List Char
  | [] => ([], [])
  | c :: rest =>
      if c = '=' then ([], rest)
      else
        let p := cutEq rest
        (c :: p.1, p.2)

/-- Modelled from `net/url`: `ParseQuery` splits on `'&'`, cuts each segment
at the first `'='`, skips empty segments and accumulates values per key
(percent-unescaping is not modelled). -/
def parseQuery (s : List Char) : Values :=
  (splitOnChar '&' s).foldl
    (fun acc seg =>
      match seg with
      | [] => acc
      | _ =>
          let p := cutEq seg
          Values.add acc (String.mk p.1) (String.mk p.2))
    []

/-- The part of a parsed `url.URL` this package observes: everything before
the query, and the parsed query values. -/
structure URL where
  base : String
  query : Values
deriving DecidableEq

/-- Rejoin the parts after the first `'?'`. -/
def joinWithSep (sep : Char) : List (List Char) → List Char
  | [] => []
  | [l] => l
  | l :: ls => l ++ sep :: joinWithSep sep ls

/-- Modelled from `net/url`: `url.Parse` fails on URLs containing a space
(standing for Go's invalid-character failures); otherwise the string is split
at the first `'?'` into base and query. -/
def parseURL (s : String) : Option URL :=
  if s.data.any (fun c => c = ' ') then none
  else
    match splitOnChar '?' s.data with
    | [] => none
    | base :: rest =>
        if rest = [] then some { base := String.mk base, query := [] }
        else some { base := String.mk base, query := parseQuery (joinWithSep '?' rest) }

/-- `loginInfo` as populated by this package: a discharge token on success or
a bakery error on failure. -/
structure loginInfo where
  dischargeToken : Option DischargeToken
  error : Option Err
deriving DecidableEq

/-- An issued HTTP redirect: target base, final query values, status code. -/
structure Redirect where
  base : String
  query : Values
  status : Nat
deriving DecidableEq

/-- Every observable side effect, in program order. -/
inductive Action where
  | updateIdentity (id : Identity)
  | logMsg (msg : String)
  | done (dischargeID : String) (info : loginInfo)
  | put (dt : DischargeToken) (expiry : Nat)
  | redirectSent (r : Redirect)
  | writeError (e : Err)
  | writePage (username : String)
  | writePlain (text : String)
deriving DecidableEq

def Action.isRedirectSent : Action → Bool
  | Action.redirectSent _ => true
  | _ => false

def Action.isWriteError : Action → Bool
  | Action.writeError _ => true
  | _ => false

def Action.isRender : Action → Bool
  | Action.writePage _ => true
  | Action.writePlain _ => true
  | _ => false

/-- Whether a network redirect is issued anywhere in a trace. -/
def issuesRedirect (acts : List Action) : Bool :=
  acts.any Action.isRedirectSent

/-- Whether an inline error is written anywhere in a trace. -/
def writesError (acts : List Action) : Bool :=
  acts.any Action.isWriteError

/-- Whether a success page (template or plain) is rendered in a trace. -/
def rendersPage (acts : List Action) : Bool :=
  acts.any Action.isRender

/-- The trace renders a success response naming user `u` (template render of
the identity, or the plain `"Login successful as %s"` fallback). -/
def rendersSuccessAs (acts : List Action) (u : String) : Prop :=
  Action.writePage u ∈ acts ∨ Action.writePlain ("Login successful as " ++ u) ∈ acts

/-- Outcomes of the external collaborators for one completion, plus the wall
clock: the oven's `NewMacaroon` failure, `MarshalBinary` failure,
`Store.UpdateIdentity` failure, `place.Done` failure (for the success
delivery), `dischargeTokenStore.Put` result, `Store.Identity` lookup failure,
and the `"login"` template (present? execute failure?). -/
structure Env where
  now : Nat
  ovenErr : Option Err
  marshalErr : Option Err
  updateErr : Option Err
  doneErr : Option Err
  putResult : Except Err String
  lookupErr : Option Err
  hasTemplate : Bool
  templateErr : Option Err

/-- The macaroon built by `dischargeTokenCreator.DischargeToken`: caveats
`checkers.TimeBeforeCaveat(time.Now().Add(dischargeTokenDuration))` and
`candidclient.UserDeclaration(id.Username)`. -/
def mintedMacaroon (now : Nat) (username : String) : Macaroon :=
  { caveats :=
      [Caveat.timeBefore (now + dischargeTokenDuration),
       Caveat.declared "username" username] }

/-- The result of a mint: the returned `(*httpbakery.DischargeToken, error)`
pair together with the side effects performed. -/
structure MintResult where
  result : Except Err DischargeToken
  actions : List Action

namespace dischargeTokenCreator

/-- `dischargeTokenCreator.DischargeToken`. A `none` result models the nil
pointer dereference of `id.Username` when `id` is nil. -/
def DischargeToken (env : Env) (id : Option Identity) : Option MintResult :=
  match id with
  | none => none
  | some i =>
      match env.ovenErr with
      | some e => some { result := Except.error e, actions := [] }
      | none =>
          match env.marshalErr with
          | some e => some { result := Except.error e, actions := [] }
          | none =>
              let v := (mintedMacaroon env.now i.username).marshalBinary
              let updated : Identity := { i with lastLogin := some env.now }
              let acts : List Action :=
                Action.updateIdentity updated ::
                  (match env.updateErr with
                   | some e =>
                       [Action.logMsg ("cannot update last login time: " ++ e.msg)]
                   | none => [])
              some { result := Except.ok { kind := "macaroon", value := v },
                     actions := acts }

end dischargeTokenCreator

namespace visitCompleter

/-- `visitCompleter.redirect`: parse `returnTo`; unless `returnTo` has the
service's configured base location (`c.params.Location`) as a prefix and the
parse succeeded, fail with `BadRequest "invalid return_to"`; otherwise merge
the given query parameters into the URL's own and issue a
`http.StatusSeeOther` (303) redirect. -/
def redirect (loc returnTo : String) (query : Values) : Except Err Redirect :=
  match parseURL returnTo with
  | none => Except.error errBadRequestReturnTo
  | some u =>
      if loc.data.isPrefixOf returnTo.data then
        Except.ok { base := u.base, query := mergeValues u.query query, status := 303 }
      else Except.error errBadRequestReturnTo

/-- `visitCompleter.Failure`: when `dischargeID` is non-empty, deliver the
(bakery-converted) error to `place.Done`, ignoring `Done`'s result; then
write the error inline. -/
def Failure (dischargeID : String) (err : Err) : List Action :=
  (if dischargeID ≠ "" then
     [Action.done dischargeID { dischargeToken := none, error := some err }]
   else []) ++ [Action.writeError err]

/-- `visitCompleter.successToken`: when `dischargeID` is non-empty, deliver
the token via `place.Done`, routing a `Done` failure to `Failure`; then, when
the identity is nil, rebuild one from the token's declaration with a
log-only-on-failure store lookup; finally render the `"login"` template (or
the plain fallback when the template is absent), logging render failures. -/
def successToken (env : Env) (dischargeID : String) (dt : DischargeToken)
    (id : Option Identity) : List Action :=
  let idFinal : Identity :=
    match id with
    | some i => i
    | none => { username := usernameFromDischargeToken dt, lastLogin := none }
  let lookupActs : List Action :=
    match id, env.lookupErr with
    | none, some e => [Action.logMsg ("cannot look up user identity: " ++ e.msg)]
    | _, _ => []
  let renderActs : List Action :=
    if env.hasTemplate then
      Action.writePage idFinal.username ::
        (match env.templateErr with
         | some e => [Action.logMsg ("error processing login template: " ++ e.msg)]
         | none => [])
    else [Action.writePlain ("Login successful as " ++ idFinal.username)]
  if dischargeID ≠ "" then
    Action.done dischargeID { dischargeToken := some dt, error := none } ::
      (match env.doneErr with
       | some e => Failure dischargeID e
       | none => lookupActs ++ renderActs)
  else lookupActs ++ renderActs

/-- `visitCompleter.Success`: mint a discharge token for the identity,
routing a mint failure to `Failure`, and otherwise continue with
`successToken`. A `none` result models the nil pointer dereference inside
the minter when `id` is nil. -/
def Success (env : Env) (dischargeID : String) (id : Option Identity) :
    Option (List Action) :=
  match dischargeTokenCreator.DischargeToken env id with
  | none => none
  | some mr =>
      match mr.result with
      | Except.error e => some (mr.actions ++ Failure dischargeID e)
      | Except.ok dt => some (mr.actions ++ successToken env dischargeID dt id)

/-- `visitCompleter.RedirectFailure`: build query values carrying the error
message, the `state` when non-empty, and the machine-readable `error_code`
when the errgo cause is a `params.ErrorCode`; redirect, or, when the redirect
cannot be issued, write the original error inline. -/
def RedirectFailure (loc returnTo state : String) (err : Err) : List Action :=
  let v0 : Values := [("error", [err.msg])]
  let v1 : Values := if state ≠ "" then Values.set v0 "state" state else v0
  let v2 : Values :=
    match err.code with
    | some ec => Values.set v1 "error_code" (errorCodeString ec)
    | none => v1
  match redirect loc returnTo v2 with
  | Except.ok r => [Action.redirectSent r]
  | Except.error _ => [Action.writeError err]

/-- `visitCompleter.RedirectSuccess`: mint a discharge token (failures route
to `RedirectFailure`), store it via `dischargeTokenStore.Put` with a
10-minute expiry (failures route to `RedirectFailure`), then redirect to
`returnTo` with `code=<code>` and, when `state` is non-empty,
`state=<state>`; when the redirect cannot be issued the redirect error is
written inline. A `none` result models the nil pointer dereference inside
the minter when `id` is nil. -/
def RedirectSuccess (env : Env) (loc returnTo state : String)
    (id : Option Identity) : Option (List Action) :=
  match dischargeTokenCreator.DischargeToken env id with
  | none => none
  | some mr =>
      match mr.result with
      | Except.error e => some (mr.actions ++ RedirectFailure loc returnTo state e)
      | Except.ok dt =>
          let putActs : List Action := [Action.put dt (env.now + 10 * minute)]
          match env.putResult with
          | Except.error e =>
              some (mr.actions ++ putActs ++ RedirectFailure loc returnTo state e)
          | Except.ok code =>
              let v : Values :=
                if state ≠ "" then Values.set [("code", [code])] "state" state
                else [("code", [code])]
              match redirect loc returnTo v with
              | Except.error e => some (mr.actions ++ putActs ++ [Action.writeError e])
              | Except.ok r => some (mr.actions ++ putActs ++ [Action.redirectSent r])

end visitCompleter

/-- Acquisition/release events on the per-request store handles
(`params.Store.Context` and `params.MeetingStore.Context`). -/
inductive HandleEvent where
  | acquireStore
  | acquireMeeting
  | releaseMeeting
  | releaseStore
deriving DecidableEq

/-- The operation resolved for a request by `opForRequest`. -/
structure Op where
  entity : String
  action : String
deriving DecidableEq

/-- `handler.Close` runs `h.close`, which releases the meeting-store handle
then the identity-store handle (`close2(); close1()`). -/
def handlerClose : List HandleEvent :=
  [HandleEvent.releaseMeeting, HandleEvent.releaseStore]

/-- `handlerCreator`: acquire the identity-store and meeting-store handles;
reject with `ErrUnauthorized` (closing the handles) when the operation
resolves to an empty entity; close the handles and propagate any
authorization error; otherwise return the live handler. -/
def handlerCreator (op : Op) (authErr : Option Err) :
    List HandleEvent × Except Err Unit :=
  let acquired := [HandleEvent.acquireStore, HandleEvent.acquireMeeting]
  if op.entity = "" then (acquired ++ handlerClose, Except.error errUnauthorized)
  else
    match authErr with
    | some e => (acquired ++ handlerClose, Except.error e)
    | none => (acquired, Except.ok ())

/-- The handle events over a whole request: on a creator error the creator
has already closed the handles; on success httprequest calls `handler.Close`
once the request completes. -/
def requestLifecycle (op : Op) (authErr : Option Err) : List HandleEvent :=
  match handlerCreator op authErr with
  | (evs, Except.error _) => evs
  | (evs, Except.ok _) => evs ++ handlerClose

/-! ### Helper lemmas -/

theorem Values.get_setAll_self (k : String) (xs : List String) (vs : Values) :
    Values.get k (Values.setAll k xs vs) = xs := by
  induction vs with
  | nil => simp [Values.setAll, Values.get]
  | cons p rest ih =>
      by_cases h : p.1 = k
      · simp [Values.setAll, Values.get, h]
      · simp [Values.setAll, Values.get, h, ih]

theorem Values.get_setAll_ne (k q : String) (xs : List String) (vs : Values)
    (h : q ≠ k) :
    Values.get k (Values.setAll q xs vs) = Values.get k vs := by
  induction vs with
  | nil => simp [Values.setAll, Values.get, h]
  | cons p rest ih =>
      by_cases hp : p.1 = q
      · simp [Values.setAll, Values.get, hp, h]
      · simp [Values.setAll, Values.get, hp, ih]

theorem get_mergeValues_of_notMem (k : String) (query : Values) :
    ∀ q : Values, k ∉ query.map Prod.fst →
      Values.get k (mergeValues q query) = Values.get k q := by
  induction query with
  | nil => intro q _; rfl
  | cons p rest ih =>
      intro q h
      simp only [List.map_cons, List.mem_cons] at h
      push_neg at h
      rw [mergeValues, ih _ h.2, Values.get_setAll_ne _ _ _ _ (Ne.symm h.1)]

theorem get_mergeValues (k : String) (query : Values) :
    ∀ q : Values, (query.map Prod.fst).Nodup →
      Values.get k (mergeValues q query) =
        Values.get k q ++ Values.get k query := by
  induction query with
  | nil => intro q _; simp [mergeValues, Values.get]
  | cons p rest ih =>
      intro q hnd
      simp only [List.map_cons, List.nodup_cons] at hnd
      by_cases hk : p.1 = k
      · rw [mergeValues, get_mergeValues_of_notMem _ _ _ (hk ▸ hnd.1), hk,
          Values.get_setAll_self]
        simp [Values.get, hk]
      · rw [mergeValues, ih _ hnd.2, Values.get_setAll_ne _ _ _ _ hk]
        simp [Values.get, hk]

theorem unmarshal_marshal (cs : List Caveat) :
    unmarshalCaveats ((cs.map marshalCaveat).flatten) = some cs := by
  induction cs with
  | nil => rfl
  | cons c rest ih => cases c <;> simp [marshalCaveat, unmarshalCaveats, ih]

theorem usernameFromDischargeToken_minted (now : Nat) (u : String) :
    usernameFromDischargeToken
      { kind := "macaroon", value := (mintedMacaroon now u).marshalBinary } = u := by
  have h := unmarshal_marshal (mintedMacaroon now u).caveats
  simp only [usernameFromDischargeToken, Macaroon.marshalBinary]
  rw [if_neg (by simp)]
  rw [h]
  simp [inferDeclared, declaredValues, mintedMacaroon, List.filterMap, List.dedup]

theorem redirect_gate (loc returnTo : String) (query : Values)
    (hgate : parseURL returnTo = none ∨ loc.data.isPrefixOf returnTo.data = false) :
    visitCompleter.redirect loc returnTo query = Except.error errBadRequestReturnTo := by
  unfold visitCompleter.redirect
  cases hp : parseURL returnTo with
  | none => rfl
  | some u =>
      rcases hgate with h | h
      · rw [hp] at h; exact absurd h (by simp)
      · simp [h]

theorem redirectFailure_gate (loc returnTo state : String) (err : Err)
    (hgate : parseURL returnTo = none ∨ loc.data.isPrefixOf returnTo.data = false) :
    visitCompleter.RedirectFailure loc returnTo state err = [Action.writeError err] := by
  unfold visitCompleter.RedirectFailure
  simp only [redirect_gate _ _ _ hgate]

theorem mint_actions_benign (env : Env) (i : Identity) :
    ∀ mr : MintResult,
      dischargeTokenCreator.DischargeToken env (some i) = some mr →
        issuesRedirect mr.actions = false ∧ writesError mr.actions = false ∧
        rendersPage mr.actions = false := by
  intro mr hmr
  unfold dischargeTokenCreator.DischargeToken at hmr
  rcases hoe : env.ovenErr with _ | e1 <;> rw [hoe] at hmr
  · rcases hme : env.marshalErr with _ | e2 <;> rw [hme] at hmr
    · rcases hue : env.updateErr with _ | e3 <;> rw [hue] at hmr <;>
        (cases hmr; simp [issuesRedirect, writesError, rendersPage, Action.isRedirectSent,
          Action.isWriteError, Action.isRender])
    · cases hmr
      simp [issuesRedirect, writesError, rendersPage]
  · cases hmr
    simp [issuesRedirect, writesError, rendersPage]

/-- C1: for every `returnTo` and query parameters, if `returnTo` does not
parse as a URL or does not start with the configured base location, then
`redirect` (used by both `RedirectSuccess` and `RedirectFailure`) returns a
`BadRequest` error, no redirect is issued, and an inline error is written to
the response instead. -/
theorem redirect_gate_badRequest (env : Env) (loc returnTo state : String)
    (query : Values) (err : Err) (i : Identity)
    (hgate : parseURL returnTo = none ∨ loc.data.isPrefixOf returnTo.data = false) :
    visitCompleter.redirect loc returnTo query = Except.error errBadRequestReturnTo ∧
    errBadRequestReturnTo.code = some ErrorCode.badRequest ∧
    visitCompleter.RedirectFailure loc returnTo state err = [Action.writeError err] ∧
    (∀ acts : List Action,
      visitCompleter.RedirectSuccess env loc returnTo state (some i) = some acts →
        issuesRedirect acts = false ∧ writesError acts = true) := by
  refine ⟨redirect_gate _ _ _ hgate, rfl, redirectFailure_gate _ _ _ _ hgate, ?_⟩
  intro acts hacts
  cases hmr : dischargeTokenCreator.DischargeToken env (some i) with
  | none => simp [visitCompleter.RedirectSuccess, hmr] at hacts
  | some mr =>
      obtain ⟨hb1, hb2, _⟩ := mint_actions_benign env i mr hmr
      cases hres : mr.result with
      | error e =>
          simp only [visitCompleter.RedirectSuccess, hmr, hres,
            redirectFailure_gate _ _ _ _ hgate, Option.some.injEq] at hacts
          subst hacts
          simp [issuesRedirect, writesError, Action.isRedirectSent,
            Action.isWriteError, issuesRedirect] at hb1 hb2 ⊢
          exact hb1
      | ok dt =>
          cases hpr : env.putResult with
          | error e =>
              simp only [visitCompleter.RedirectSuccess, hmr, hres, hpr,
                redirectFailure_gate _ _ _ _ hgate, Option.some.injEq] at hacts
              subst hacts
              simp [issuesRedirect, writesError, Action.isRedirectSent,
                Action.isWriteError] at hb1 hb2 ⊢
              exact hb1
          | ok code =>
              simp only [visitCompleter.RedirectSuccess, hmr, hres, hpr,
                redirect_gate _ _ _ hgate, Option.some.injEq] at hacts
              subst hacts
              simp [issuesRedirect, writesError, Action.isRedirectSent,
                Action.isWriteError] at hb1 hb2 ⊢
              exact hb1

/-- C1 witness: a `returnTo` outside the base location is rejected with
`BadRequest` on both redirect paths and no redirect is issued. -/
theorem redirect_gate_badRequest_witness :
    (parseURL "b/x" = none ∨ ("a" : String).data.isPrefixOf ("b/x" : String).data = false) ∧
    (visitCompleter.redirect "a" "b/x" [("code", ["z"])] =
      Except.error errBadRequestReturnTo ∧
    errBadRequestReturnTo.code = some ErrorCode.badRequest ∧
    visitCompleter.RedirectFailure "a" "b/x" "s" { msg := "boom", code := none } =
      [Action.writeError { msg := "boom", code := none }] ∧
    (∀ acts : List Action,
      visitCompleter.RedirectSuccess
          { now := 0, ovenErr := none, marshalErr := none, updateErr := none,
            doneErr := none, putResult := Except.ok "c0", lookupErr := none,
            hasTemplate := false, templateErr := none }
          "a" "b/x" "s" (some { username := "bob", lastLogin := none }) = some acts →
        issuesRedirect acts = false ∧ writesError acts = true)) :=
  ⟨Or.inr (by decide),
   redirect_gate_badRequest _ "a" "b/x" "s" [("code", ["z"])]
     { msg := "boom", code := none } { username := "bob", lastLogin := none }
     (Or.inr (by decide))⟩

/-- C10: when `returnTo` passes the safety gate, the issued redirect keeps
every query parameter already present in `returnTo` and appends the given
completion parameters to them (values are merged, not replaced), and the
redirect uses HTTP status 303 See Other. -/
theorem redirect_merges_query_and_303 (loc returnTo : String) (query : Values)
    (u : URL)
    (hparse : parseURL returnTo = some u)
    (hpre : loc.data.isPrefixOf returnTo.data = true)
    (hnd : (query.map Prod.fst).Nodup) :
    ∃ r : Redirect,
      visitCompleter.redirect loc returnTo query = Except.ok r ∧
      r.status = 303 ∧ r.base = u.base ∧
      ∀ k : String,
        Values.get k r.query = Values.get k u.query ++ Values.get k query := by
  refine ⟨{ base := u.base, query := mergeValues u.query query, status := 303 },
    ?_, rfl, rfl, ?_⟩
  · unfold visitCompleter.redirect
    rw [hparse]
    simp [hpre]
  · intro k
    exact get_mergeValues k query u.query hnd

/-- C10 witness: redirecting to `a/x?b=1` with parameters `b=2`, `code=z`
appends to the existing `b` values and issues a 303. -/
theorem redirect_merges_query_and_303_witness :
    (parseURL "a/x?b=1" = some { base := "a/x", query := [("b", ["1"])] } ∧
     ("a" : String).data.isPrefixOf ("a/x?b=1" : String).data = true ∧
     (([("b", ["2"]), ("code", ["z"])] : Values).map Prod.fst).Nodup) ∧
    (∃ r : Redirect,
      visitCompleter.redirect "a" "a/x?b=1" [("b", ["2"]), ("code", ["z"])] =
        Except.ok r ∧
      r.status = 303 ∧ r.base = ({ base := "a/x", query := [("b", ["1"])] } : URL).base ∧
      ∀ k : String,
        Values.get k r.query =
          Values.get k ({ base := "a/x", query := [("b", ["1"])] } : URL).query ++
            Values.get k [("b", ["2"]), ("code", ["z"])]) :=
  ⟨⟨by decide, by decide, by decide⟩,
   redirect_merges_query_and_303 "a" "a/x?b=1" [("b", ["2"]), ("code", ["z"])]
     { base := "a/x", query := [("b", ["1"])] } (by decide) (by decide) (by decide)⟩

/-- C2: in redirect mode, when minting and storing succeed and `returnTo`
passes the gate, `RedirectSuccess` stores the minted credential with expiry
exactly 10 minutes from the current time and redirects to `returnTo` with
`code=<fresh code>` and, exactly when `state` is non-empty, `state=<state>`. -/
theorem redirectSuccess_put10min_code_state (env : Env)
    (loc returnTo state : String) (i : Identity) (code : String) (u : URL)
    (h1 : env.ovenErr = none) (h2 : env.marshalErr = none)
    (h3 : env.putResult = Except.ok code)
    (hparse : parseURL returnTo = some u)
    (hpre : loc.data.isPrefixOf returnTo.data = true) :
    ∃ acts : List Action, ∃ r : Redirect,
      visitCompleter.RedirectSuccess env loc returnTo state (some i) = some acts ∧
      Action.put
          { kind := "macaroon",
            value := (mintedMacaroon env.now i.username).marshalBinary }
          (env.now + 10 * minute) ∈ acts ∧
      Action.redirectSent r ∈ acts ∧
      r.status = 303 ∧ r.base = u.base ∧
      Values.get "code" r.query = Values.get "code" u.query ++ [code] ∧
      (state ≠ "" →
        Values.get "state" r.query = Values.get "state" u.query ++ [state]) ∧
      (state = "" → Values.get "state" r.query = Values.get "state" u.query) := by
  obtain ⟨mr, hmr, hres⟩ :
      ∃ mr : MintResult,
        dischargeTokenCreator.DischargeToken env (some i) = some mr ∧
        mr.result = Except.ok
          { kind := "macaroon",
            value := (mintedMacaroon env.now i.username).marshalBinary } := by
    unfold dischargeTokenCreator.DischargeToken
    rw [h1, h2]
    exact ⟨_, rfl, rfl⟩
  by_cases hst : state = ""
  · have hred : visitCompleter.redirect loc returnTo [("code", [code])] =
        Except.ok { base := u.base, query := mergeValues u.query [("code", [code])],
                    status := 303 } := by
      unfold visitCompleter.redirect
      rw [hparse]
      simp [hpre]
    refine ⟨mr.actions ++ [Action.put
        { kind := "macaroon",
          value := (mintedMacaroon env.now i.username).marshalBinary }
        (env.now + 10 * minute)] ++
        [Action.redirectSent
          { base := u.base, query := mergeValues u.query [("code", [code])],
            status := 303 }],
      { base := u.base, query := mergeValues u.query [("code", [code])],
        status := 303 }, ?_, ?_, ?_, rfl, rfl, ?_, ?_, ?_⟩
    · simp [visitCompleter.RedirectSuccess, hmr, hres, h3, hst, hred]
    · simp
    · simp
    · dsimp only
      rw [get_mergeValues "code" [("code", [code])] u.query (by simp)]
      simp [Values.get]
    · intro h; exact absurd hst h
    · intro _
      dsimp only
      rw [get_mergeValues "state" [("code", [code])] u.query (by simp)]
      simp [Values.get]
  · have hvq : Values.set [("code", [code])] "state" state =
        [("code", [code]), ("state", [state])] := by
      simp [Values.set, Values.setAll]
    have hred : visitCompleter.redirect loc returnTo
        [("code", [code]), ("state", [state])] =
        Except.ok { base := u.base,
                    query := mergeValues u.query
                      [("code", [code]), ("state", [state])],
                    status := 303 } := by
      unfold visitCompleter.redirect
      rw [hparse]
      simp [hpre]
    refine ⟨mr.actions ++ [Action.put
        { kind := "macaroon",
          value := (mintedMacaroon env.now i.username).marshalBinary }
        (env.now + 10 * minute)] ++
        [Action.redirectSent
          { base := u.base,
            query := mergeValues u.query [("code", [code]), ("state", [state])],
            status := 303 }],
      { base := u.base,
        query := mergeValues u.query [("code", [code]), ("state", [state])],
        status := 303 }, ?_, ?_, ?_, rfl, rfl, ?_, ?_, ?_⟩
    · simp [visitCompleter.RedirectSuccess, hmr, hres, h3, hst, hvq, hred]
    · simp
    · simp
    · dsimp only
      rw [get_mergeValues "code" [("code", [code]), ("state", [state])] u.query
        (by simp)]
      simp [Values.get]
    · intro _
      dsimp only
      rw [get_mergeValues "state" [("code", [code]), ("state", [state])] u.query
        (by simp)]
      simp [Values.get]
    · intro h; exact absurd h hst

/-- An environment in which every collaborator succeeds. -/
def envOk : Env :=
  { now := 0, ovenErr := none, marshalErr := none, updateErr := none,
    doneErr := none, putResult := Except.ok "c0", lookupErr := none,
    hasTemplate := false, templateErr := none }

/-- C2 witness: a concrete successful redirect completion. -/
theorem redirectSuccess_put10min_code_state_witness :
    (envOk.ovenErr = none ∧ envOk.marshalErr = none ∧
     envOk.putResult = Except.ok "c0" ∧
     parseURL "a/x?b=1" = some { base := "a/x", query := [("b", ["1"])] } ∧
     ("a" : String).data.isPrefixOf ("a/x?b=1" : String).data = true) ∧
    (∃ acts : List Action, ∃ r : Redirect,
      visitCompleter.RedirectSuccess envOk "a" "a/x?b=1" "s1"
          (some { username := "bob", lastLogin := none }) = some acts ∧
      Action.put
          { kind := "macaroon",
            value := (mintedMacaroon envOk.now "bob").marshalBinary }
          (envOk.now + 10 * minute) ∈ acts ∧
      Action.redirectSent r ∈ acts ∧
      r.status = 303 ∧ r.base = "a/x" ∧
      Values.get "code" r.query = Values.get "code" [("b", ["1"])] ++ ["c0"] ∧
      (("s1" : String) ≠ "" →
        Values.get "state" r.query = Values.get "state" [("b", ["1"])] ++ ["s1"]) ∧
      (("s1" : String) = "" →
        Values.get "state" r.query = Values.get "state" [("b", ["1"])])) :=
  ⟨⟨rfl, rfl, rfl, by decide, by decide⟩,
   redirectSuccess_put10min_code_state envOk "a" "a/x?b=1" "s1"
     { username := "bob", lastLogin := none } "c0"
     { base := "a/x", query := [("b", ["1"])] } rfl rfl rfl (by decide) (by decide)⟩

/-- C3: every credential produced by the minter has Kind `"macaroon"` and
Value the binary marshalling of a macaroon carrying a time-before caveat set
28 days after the mint time and a username declaration for the given
identity. -/
theorem dischargeToken_wire_form (env : Env) (i : Identity)
    (h1 : env.ovenErr = none) (h2 : env.marshalErr = none) :
    ∃ mr : MintResult,
      dischargeTokenCreator.DischargeToken env (some i) = some mr ∧
      mr.result = Except.ok
        { kind := "macaroon",
          value := Macaroon.marshalBinary
            { caveats :=
                [Caveat.timeBefore (env.now + dischargeTokenDuration),
                 Caveat.declared "username" i.username] } } ∧
      dischargeTokenDuration = 28 * 24 * 60 * 60 := by
  unfold dischargeTokenCreator.DischargeToken
  rw [h1, h2]
  exact ⟨_, rfl, rfl,
    by norm_num [dischargeTokenDuration, identityMacaroonDuration, hour, minute]⟩

/-- C3 witness: a concrete mint. -/
theorem dischargeToken_wire_form_witness :
    (envOk.ovenErr = none ∧ envOk.marshalErr = none) ∧
    (∃ mr : MintResult,
      dischargeTokenCreator.DischargeToken envOk
          (some { username := "bob", lastLogin := none }) = some mr ∧
      mr.result = Except.ok
        { kind := "macaroon",
          value := Macaroon.marshalBinary
            { caveats :=
                [Caveat.timeBefore (envOk.now + dischargeTokenDuration),
                 Caveat.declared "username" "bob"] } } ∧
      dischargeTokenDuration = 28 * 24 * 60 * 60) :=
  ⟨⟨rfl, rfl⟩,
   dischargeToken_wire_form envOk { username := "bob", lastLogin := none } rfl rfl⟩

/-- C4: when minting succeeds but persisting the `LastLogin` update fails,
the failure is only logged and `DischargeToken` still returns the valid
credential with a nil error; no error response is written. -/
theorem dischargeToken_update_failure_logged (env : Env) (i : Identity)
    (e : Err)
    (h1 : env.ovenErr = none) (h2 : env.marshalErr = none)
    (h3 : env.updateErr = some e) :
    ∃ mr : MintResult,
      dischargeTokenCreator.DischargeToken env (some i) = some mr ∧
      mr.result = Except.ok
        { kind := "macaroon",
          value := (mintedMacaroon env.now i.username).marshalBinary } ∧
      Action.logMsg ("cannot update last login time: " ++ e.msg) ∈ mr.actions ∧
      writesError mr.actions = false := by
  unfold dischargeTokenCreator.DischargeToken
  rw [h1, h2, h3]
  refine ⟨_, rfl, rfl, ?_, ?_⟩
  · simp
  · simp [writesError, Action.isWriteError]

/-- An environment in which only the `LastLogin` persistence fails. -/
def envUpdFail : Env :=
  { envOk with updateErr := some { msg := "db down", code := none } }

/-- C4 witness: a concrete mint with a failing `LastLogin` update. -/
theorem dischargeToken_update_failure_logged_witness :
    (envUpdFail.ovenErr = none ∧ envUpdFail.marshalErr = none ∧
     envUpdFail.updateErr = some { msg := "db down", code := none }) ∧
    (∃ mr : MintResult,
      dischargeTokenCreator.DischargeToken envUpdFail
          (some { username := "bob", lastLogin := none }) = some mr ∧
      mr.result = Except.ok
        { kind := "macaroon",
          value := (mintedMacaroon envUpdFail.now "bob").marshalBinary } ∧
      Action.logMsg ("cannot update last login time: " ++ "db down") ∈ mr.actions ∧
      writesError mr.actions = false) :=
  ⟨⟨rfl, rfl, rfl⟩,
   dischargeToken_update_failure_logged envUpdFail
     { username := "bob", lastLogin := none } { msg := "db down", code := none }
     rfl rfl rfl⟩

theorem successToken_structure (env : Env) (did : String) (dt : DischargeToken)
    (i : Identity) (hdid : did ≠ "") :
    visitCompleter.successToken env did dt (some i) =
      Action.done did { dischargeToken := some dt, error := none } ::
        (match env.doneErr with
         | some e => visitCompleter.Failure did e
         | none =>
             if env.hasTemplate then
               Action.writePage i.username ::
                 (match env.templateErr with
                  | some e =>
                      [Action.logMsg ("error processing login template: " ++ e.msg)]
                  | none => [])
             else [Action.writePlain ("Login successful as " ++ i.username)]) := by
  simp [visitCompleter.successToken, hdid]

/-- C5: in direct mode (non-empty discharge id), `Success` delivers the
minted credential via `place.Done` before any page render; with `Done`
succeeding, a render failure is logged only and no error response is
written; a `Done` failure routes the completion to the `Failure` path. -/
theorem success_direct_done_before_render (env : Env) (did : String)
    (i : Identity)
    (hdid : did ≠ "") (h1 : env.ovenErr = none) (h2 : env.marshalErr = none) :
    ∃ acts pre post : List Action,
      visitCompleter.Success env did (some i) = some acts ∧
      acts = pre ++
        Action.done did
          { dischargeToken := some
              { kind := "macaroon",
                value := (mintedMacaroon env.now i.username).marshalBinary },
            error := none } :: post ∧
      rendersPage pre = false ∧
      (env.doneErr = none → writesError acts = false ∧ rendersPage post = true) ∧
      (∀ e : Err, env.doneErr = some e → post = visitCompleter.Failure did e) := by
  obtain ⟨mr, hmr, hres⟩ :
      ∃ mr : MintResult,
        dischargeTokenCreator.DischargeToken env (some i) = some mr ∧
        mr.result = Except.ok
          { kind := "macaroon",
            value := (mintedMacaroon env.now i.username).marshalBinary } := by
    unfold dischargeTokenCreator.DischargeToken
    rw [h1, h2]
    exact ⟨_, rfl, rfl⟩
  have hben := mint_actions_benign env i mr hmr
  have hwe : writesError mr.actions = false := by
    have := hben.2.1
    simpa [writesError] using this
  refine ⟨mr.actions ++
      Action.done did
        { dischargeToken := some
            { kind := "macaroon",
              value := (mintedMacaroon env.now i.username).marshalBinary },
          error := none } ::
        (match env.doneErr with
         | some e => visitCompleter.Failure did e
         | none =>
             if env.hasTemplate then
               Action.writePage i.username ::
                 (match env.templateErr with
                  | some e =>
                      [Action.logMsg ("error processing login template: " ++ e.msg)]
                  | none => [])
             else [Action.writePlain ("Login successful as " ++ i.username)]),
    mr.actions, _, ?_, rfl, hben.2.2, ?_, ?_⟩
  · simp only [visitCompleter.Success, hmr, hres,
      successToken_structure env did _ i hdid]
  · intro hde
    rw [hde]
    constructor
    · cases hht : env.hasTemplate with
      | false =>
          simp [writesError, Action.isWriteError, List.any_append, hht] at hwe ⊢
          exact hwe
      | true =>
          rcases hte : env.templateErr with _ | e <;>
            simp [writesError, Action.isWriteError, List.any_append, hht, hte] at hwe ⊢ <;>
            exact hwe
    · cases hht : env.hasTemplate with
      | false => simp [rendersPage, Action.isRender, hht]
      | true => simp [rendersPage, Action.isRender, hht]
  · intro e hde
    rw [hde]

/-- C5 witness: a concrete direct-mode success completion. -/
theorem success_direct_done_before_render_witness :
    (("d" : String) ≠ "" ∧ envOk.ovenErr = none ∧ envOk.marshalErr = none) ∧
    (∃ acts pre post : List Action,
      visitCompleter.Success envOk "d"
          (some { username := "bob", lastLogin := none }) = some acts ∧
      acts = pre ++
        Action.done "d"
          { dischargeToken := some
              { kind := "macaroon",
                value := (mintedMacaroon envOk.now "bob").marshalBinary },
            error := none } :: post ∧
      rendersPage pre = false ∧
      (envOk.doneErr = none → writesError acts = false ∧ rendersPage post = true) ∧
      (∀ e : Err, envOk.doneErr = some e → post = visitCompleter.Failure "d" e)) :=
  ⟨⟨by decide, rfl, rfl⟩,
   success_direct_done_before_render envOk "d"
     { username := "bob", lastLogin := none } (by decide) rfl rfl⟩

theorem successToken_tokenOnly (env : Env) (dt : DischargeToken) :
    visitCompleter.successToken env "" dt none =
      (match env.lookupErr with
       | some e => [Action.logMsg ("cannot look up user identity: " ++ e.msg)]
       | none => []) ++
      (if env.hasTemplate then
         Action.writePage (usernameFromDischargeToken dt) ::
           (match env.templateErr with
            | some e =>
                [Action.logMsg ("error processing login template: " ++ e.msg)]
            | none => [])
       else
         [Action.writePlain
           ("Login successful as " ++ usernameFromDischargeToken dt)]) := by
  rcases hle : env.lookupErr with _ | e <;> simp [visitCompleter.successToken, hle]

theorem successToken_tokenOnly_renders (env : Env) (dt : DischargeToken) :
    rendersSuccessAs (visitCompleter.successToken env "" dt none)
      (usernameFromDischargeToken dt) := by
  rw [successToken_tokenOnly]
  cases hht : env.hasTemplate <;> rcases hle : env.lookupErr with _ | e <;>
    simp [rendersSuccessAs, hht, hle]

/-- C6: in a token-only success completion with an absent identity, the
username shown is derived from the minted credential's embedded declaration
(and equals the declared username for a minted token); a non-macaroon kind or
an unparseable value leaves it empty; an identity-lookup failure is only
logged; and in all cases the success response is still written and no error
response is issued. -/
theorem successToken_absent_identity (env : Env) (dt : DischargeToken) :
    rendersSuccessAs (visitCompleter.successToken env "" dt none)
        (usernameFromDischargeToken dt) ∧
    writesError (visitCompleter.successToken env "" dt none) = false ∧
    (dt.kind ≠ "macaroon" → usernameFromDischargeToken dt = "") ∧
    (unmarshalCaveats dt.value = none → usernameFromDischargeToken dt = "") ∧
    (∀ e : Err, env.lookupErr = some e →
        Action.logMsg ("cannot look up user identity: " ++ e.msg) ∈
          visitCompleter.successToken env "" dt none) ∧
    (∀ now : Nat, ∀ u : String,
        usernameFromDischargeToken
          { kind := "macaroon", value := (mintedMacaroon now u).marshalBinary } =
          u) := by
  refine ⟨successToken_tokenOnly_renders env dt, ?_, ?_, ?_, ?_, ?_⟩
  · rw [successToken_tokenOnly]
    cases hht : env.hasTemplate <;> rcases hle : env.lookupErr with _ | e <;>
      rcases hte : env.templateErr with _ | e' <;>
      simp [writesError, Action.isWriteError, hht, hle, hte]
  · intro h
    simp [usernameFromDischargeToken, h]
  · intro h
    by_cases hk : dt.kind = "macaroon"
    · simp [usernameFromDischargeToken, hk, h]
    · simp [usernameFromDischargeToken, hk]
  · intro e he
    rw [successToken_tokenOnly, he]
    simp
  · intro now u
    exact usernameFromDischargeToken_minted now u

/-- The plain error used in concrete runs. -/
def errPlain : Err := { msg := "e", code := none }

/-- C7 counterexample: two `Failure` calls identical except for the
emptiness of the discharge-id argument behave differently — the rendezvous
delivery step happens exactly when `dischargeID != ""` — refuting the claim
that no step of the completion flow decides between the modes by testing
whether a field such as the discharge id is empty. -/
theorem completionMode_counterexample :
    visitCompleter.Failure "" errPlain = [Action.writeError errPlain] ∧
    visitCompleter.Failure "d" errPlain =
      [Action.done "d" { dischargeToken := none, error := some errPlain },
       Action.writeError errPlain] ∧
    visitCompleter.Failure "" errPlain ≠ visitCompleter.Failure "d" errPlain :=
  ⟨by decide, by decide, by decide⟩

theorem successToken_empty_no_done (env : Env) (dt : DischargeToken)
    (i : Option Identity) (info : loginInfo) (s : String) :
    Action.done s info ∉ visitCompleter.successToken env "" dt i := by
  rcases i with _ | j <;>
    rcases hle : env.lookupErr with _ | e <;>
    cases hht : env.hasTemplate <;>
    rcases hte : env.templateErr with _ | e' <;>
    simp [visitCompleter.successToken, hle, hht, hte]

/-- C7 amended: the code carries no explicit completion-mode sum type;
`Failure` and `successToken` decide whether to deliver the outcome through
the rendezvous by testing emptiness of the discharge-id field — delivery
happens exactly when it is non-empty — while direct and redirect completions
are separate entry points. -/
theorem completionMode_emptiness_branch (env : Env) (did : String) (e : Err)
    (dt : DischargeToken) (i : Option Identity) :
    ((∃ info : loginInfo,
        Action.done did info ∈ visitCompleter.Failure did e) ↔ did ≠ "") ∧
    ((∃ info : loginInfo,
        Action.done did info ∈ visitCompleter.successToken env did dt i) ↔
      did ≠ "") := by
  by_cases hdid : did = ""
  · subst hdid
    constructor
    · constructor
      · rintro ⟨info, h⟩
        simp [visitCompleter.Failure] at h
      · intro h; exact absurd rfl h
    · constructor
      · rintro ⟨info, h⟩
        exact absurd h (successToken_empty_no_done env dt i info "")
      · intro h; exact absurd rfl h
  · constructor
    · constructor
      · intro _; exact hdid
      · intro _
        exact ⟨{ dischargeToken := none, error := some e },
          by simp [visitCompleter.Failure, hdid]⟩
    · constructor
      · intro _; exact hdid
      · intro _
        exact ⟨{ dischargeToken := some dt, error := none },
          by simp [visitCompleter.successToken, hdid]⟩

/-- C8: the per-request identity-store and meeting-store handles are
released on every exit path — early Unauthorized rejection (empty operation
entity), authorization error, and normal completion via `handler.Close` —
and every path yields the same balanced acquire/release trace. -/
theorem handler_releases_on_all_paths (op : Op) (authErr : Option Err) :
    requestLifecycle op authErr =
      [HandleEvent.acquireStore, HandleEvent.acquireMeeting,
       HandleEvent.releaseMeeting, HandleEvent.releaseStore] ∧
    (op.entity = "" →
      (handlerCreator op authErr).2 = Except.error errUnauthorized) ∧
    (∀ e : Err, op.entity ≠ "" → authErr = some e →
      (handlerCreator op authErr).2 = Except.error e) := by
  by_cases h : op.entity = ""
  · rcases authErr with _ | e <;>
      simp [requestLifecycle, handlerCreator, handlerClose, h]
  · rcases authErr with _ | e <;>
      simp [requestLifecycle, handlerCreator, handlerClose, h]

/-- C9: an absent (nil) identity is outside the precondition of `Success`
and `RedirectSuccess`: the minter unconditionally dereferences the identity
(modelled as an undefined `none` outcome), while the token-only path
`successToken` tolerates the absent identity and still renders a success
page from the minted credential's declaration. -/
theorem success_requires_nonnil_identity (env : Env)
    (did loc returnTo state : String) (dt : DischargeToken) :
    dischargeTokenCreator.DischargeToken env none = none ∧
    visitCompleter.Success env did none = none ∧
    visitCompleter.RedirectSuccess env loc returnTo state none = none ∧
    rendersSuccessAs (visitCompleter.successToken env "" dt none)
      (usernameFromDischargeToken dt) :=
  ⟨rfl, rfl, rfl, successToken_tokenOnly_renders env dt⟩

end Candid
